import Mathlib

/-!
Verification of the MDM HR CRUD service (`app.py`).

The service exposes five handlers over a single relational table
`employee`.  We embed the table as a list of rows (`List Employee`) and
each handler as a pure function from the table state (and the request
arguments) to a result together with the table state after the request.
SQL statements are translated by their semantics:

* `INSERT` appends a row; the storage engine assigns `id` as one more
  than the largest existing `id` (SQLite rowid assignment), and enforces
  the `UNIQUE` constraint on `employee_no` (NULLs are exempt, as in SQL);
  a violation raises an `IntegrityError` which the handler does not
  catch, so it propagates as a generic HTTP 500 server failure.
* `SELECT ... WHERE id = X` is `List.find?` on the id.
* `SELECT ... [WHERE branch = B] LIMIT n` is filter-then-take (SQL
  applies `WHERE` before `LIMIT` regardless of builder call order).
* `UPDATE ... WHERE id = X SET <all input fields>` maps over the rows,
  replacing every mutable field of the matching rows and keeping `id`;
  the `UNIQUE` constraint on `employee_no` also guards this statement:
  when a row is actually updated and the supplied non-null `employee_no`
  is already held by a different row, the statement aborts with an
  `IntegrityError` (again uncaught, hence HTTP 500) and changes nothing.
* `DELETE ... WHERE id = X` drops the matching rows.

Python truthiness in `if branch:` (line 80 of the source) is modelled
explicitly: both an absent filter and an empty-string filter leave the
query unfiltered.
-/

namespace MdmHR

/-- Calendar date, as stored in the `date_hired` column. -/
structure HireDate where
  year : Nat
  month : Nat
  day : Nat
deriving DecidableEq, Repr

/-- Input shape (`EmployeeIn` pydantic model): all fields except `id`,
with `first_name` and `last_name` mandatory and every other field
optional, defaulting to null. -/
structure EmployeeIn where
  employee_no : Option String := none
  first_name : String
  last_name : String
  email : Option String := none
  phone : Option String := none
  branch : Option String := none
  job_title : Option String := none
  salary : Option ℚ := none
  date_hired : Option HireDate := none
deriving DecidableEq, Repr

/-- Output shape (`EmployeeOut` pydantic model): the input shape plus
the storage-assigned `id`. -/
structure EmployeeOut extends EmployeeIn where
  id : Nat
deriving DecidableEq, Repr

/-- A row of the `employee` table. -/
structure Employee where
  id : Nat
  employee_no : Option String := none
  first_name : String
  last_name : String
  email : Option String := none
  phone : Option String := none
  branch : Option String := none
  job_title : Option String := none
  salary : Option ℚ := none
  date_hired : Option HireDate := none
deriving DecidableEq, Repr

/-- The table state: the rows of the `employee` table, in storage order. -/
abbrev DB := List Employee

/-- Row built from an input record and a storage-assigned id
(the `INSERT ... VALUES(**emp.dict())` of `create_employee`). -/
def rowOfIn (emp : EmployeeIn) (i : Nat) : Employee :=
  { id := i
    employee_no := emp.employee_no
    first_name := emp.first_name
    last_name := emp.last_name
    email := emp.email
    phone := emp.phone
    branch := emp.branch
    job_title := emp.job_title
    salary := emp.salary
    date_hired := emp.date_hired }

/-- Response record built from a table row (`dict(row)` shaped through
`EmployeeOut`). -/
def rowToOut (r : Employee) : EmployeeOut :=
  { id := r.id
    employee_no := r.employee_no
    first_name := r.first_name
    last_name := r.last_name
    email := r.email
    phone := r.phone
    branch := r.branch
    job_title := r.job_title
    salary := r.salary
    date_hired := r.date_hired }

/-- Response record built directly from the input and the assigned id
(the `\x7b**emp.dict(), "id": emp_id\x7d` returned by `create_employee`). -/
def outOf (emp : EmployeeIn) (i : Nat) : EmployeeOut :=
  { toEmployeeIn := emp, id := i }

/-- Largest `id` present in the table (0 when empty). -/
def maxId (db : DB) : Nat :=
  db.foldr (fun r m => max r.id m) 0

/-- The id the storage engine assigns to the next inserted row:
one more than the largest existing id (SQLite rowid assignment). -/
def freshId (db : DB) : Nat :=
  maxId db + 1

/-- Whether inserting `emp` violates the `UNIQUE` constraint on
`employee_no` (column definition line 27): true exactly when the input
carries a non-null `employee_no` already present in some row.  As in
SQL, null values are exempt from the constraint. -/
def employeeNoConflict (emp : EmployeeIn) (db : DB) : Bool :=
  match emp.employee_no with
  | some s => db.any (fun r => r.employee_no == some s)
  | none => false

/-- Errors a request can finish with.  `httpException` is an
`HTTPException(status_code, detail)` raised by a handler;
`integrityError` is the storage engine's uniqueness-violation exception,
which no handler catches, so the framework turns it into a generic
HTTP 500 server failure. -/
inductive HandlerError where
  | httpException (status_code : Nat) (detail : String)
  | integrityError
deriving DecidableEq, Repr

/-- HTTP status code the caller sees for an error. -/
def HandlerError.statusOf : HandlerError → Nat
  | .httpException s _ => s
  | .integrityError => 500

/-- Whether the caller sees a client-facing (4xx) error, such as a
409 conflict, as opposed to a generic server-side (5xx) failure. -/
def isClientFacingError (e : HandlerError) : Bool :=
  decide (400 ≤ e.statusOf ∧ e.statusOf < 500)

/-- Whether a create/get/update request finished successfully. -/
def succeeded {α : Type} (res : Except HandlerError α × DB) : Bool :=
  match res.1 with
  | .ok _ => true
  | .error _ => false

/-- `POST /api/employees` (`create_employee`, lines 70-74): insert a row
with the supplied fields, let the storage engine assign `id`, and return
the input record together with that id.  A uniqueness violation on
`employee_no` propagates uncaught. -/
def create_employee (db : DB) (emp : EmployeeIn) :
    Except HandlerError EmployeeOut × DB :=
  if employeeNoConflict emp db then
    (.error .integrityError, db)
  else
    let i := freshId db
    (.ok (outOf emp i), db ++ [rowOfIn emp i])

/-- `GET /api/employees` (`list_employees`, lines 77-83): read-only;
optional exact-match `branch` filter and a row limit defaulting to 100.
Python truthiness makes an empty-string filter behave like no filter. -/
def list_employees (db : DB) (branch : Option String)
    (limit : Nat := 100) : List EmployeeOut × DB :=
  let filtered :=
    match branch with
    | some b => if b = "" then db else db.filter (fun r => r.branch == some b)
    | none => db
  ((filtered.take limit).map rowToOut, db)

/-- `GET /api/employees/\x7bemp_id\x7d` (`get_employee`, lines 86-92):
fetch the row with the given id; 404 when absent. -/
def get_employee (db : DB) (emp_id : Nat) :
    Except HandlerError EmployeeOut × DB :=
  match db.find? (fun r => r.id == emp_id) with
  | some r => (.ok (rowToOut r), db)
  | none => (.error (.httpException 404 "Employee not found"), db)

/-- Effect of `UPDATE employee SET <all input fields> WHERE id = emp_id`
on one row: every mutable field is replaced by the supplied value
(optional fields absent from the input become null); `id` is untouched. -/
def applyUpdate (r : Employee) (emp : EmployeeIn) : Employee :=
  { id := r.id
    employee_no := emp.employee_no
    first_name := emp.first_name
    last_name := emp.last_name
    email := emp.email
    phone := emp.phone
    branch := emp.branch
    job_title := emp.job_title
    salary := emp.salary
    date_hired := emp.date_hired }

/-- Whether the `UPDATE ... WHERE id = emp_id` statement violates the
`UNIQUE` constraint on `employee_no` (column definition line 27): true
exactly when the statement actually updates a row (some row matches the
`WHERE`), the supplied `employee_no` is non-null, and a different row —
one the `WHERE` does not touch — already holds that value.  When no row
matches, zero rows are written and the constraint cannot fire; a row
keeping its own `employee_no` does not collide with itself. -/
def updateEmployeeNoConflict (db : DB) (emp_id : Nat) (emp : EmployeeIn) :
    Bool :=
  match emp.employee_no with
  | some s =>
      db.any (fun r => r.id == emp_id) &&
        db.any (fun r => !(r.id == emp_id) && r.employee_no == some s)
  | none => false

/-- `PUT /api/employees/\x7bemp_id\x7d` (`update_employee`, lines 95-103):
issue the update, then re-read the row; 404 when the re-read finds
nothing (the existence check happens only after the write attempt).
A uniqueness violation on `employee_no` aborts the write, leaves the
table unchanged and propagates uncaught. -/
def update_employee (db : DB) (emp_id : Nat) (emp : EmployeeIn) :
    Except HandlerError EmployeeOut × DB :=
  if updateEmployeeNoConflict db emp_id emp then
    (.error .integrityError, db)
  else
    let db2 := db.map (fun r => if r.id == emp_id then applyUpdate r emp else r)
    match db2.find? (fun r => r.id == emp_id) with
    | some r => (.ok (rowToOut r), db2)
    | none => (.error (.httpException 404 "Employee not found after update"), db2)

/-- Acknowledgement returned by the delete handler
(`\x7b"deleted_id": emp_id\x7d`). -/
structure DeleteAck where
  deleted_id : Nat
deriving DecidableEq, Repr

/-- `DELETE /api/employees/\x7bemp_id\x7d` (`delete_employee`,
lines 106-110): drop the matching rows and acknowledge with the
requested id, whether or not a row existed. -/
def delete_employee (db : DB) (emp_id : Nat) : DeleteAck × DB :=
  ({ deleted_id := emp_id }, db.filter (fun r => !(r.id == emp_id)))

/-! Concrete fixtures used by witnesses and counterexamples. -/

/-- Input supplying only the two required fields (spec §8 example). -/
def anaIn : EmployeeIn :=
  { first_name := "Ana", last_name := "Cruz" }

/-- A one-row table whose row carries `employee_no` "E1". -/
def dbE1 : DB :=
  [{ id := 1, employee_no := some "E1", first_name := "Bob", last_name := "Lee" }]

/-- An input record reusing the `employee_no` "E1" of `dbE1`. -/
def empE1 : EmployeeIn :=
  { employee_no := some "E1", first_name := "Cid", last_name := "Roe" }

/-- A two-row table with distinct ids and distinct `employee_no`
values "E1" and "E2". -/
def dbTwo : DB :=
  [{ id := 1, employee_no := some "E1", first_name := "Bob",
     last_name := "Lee" },
   { id := 2, employee_no := some "E2", first_name := "Dee",
     last_name := "Ng" }]

/-- The row of `dbNorth`: branch "North". -/
def northRow : Employee :=
  { id := 1, first_name := "Ana", last_name := "Cruz", branch := some "North" }

/-- A one-row table whose row has branch "North". -/
def dbNorth : DB := [northRow]

/-! Helper lemmas about the embedded storage primitives. -/

lemma id_le_maxId {db : DB} {r : Employee} (h : r ∈ db) : r.id ≤ maxId db := by
  induction db with
  | nil => cases h
  | cons a t ih =>
    rcases List.mem_cons.mp h with rfl | ht
    · simp only [maxId, List.foldr_cons]
      exact le_max_left _ _
    · simp only [maxId, List.foldr_cons]
      exact le_trans (ih ht) (le_max_right _ _)

lemma id_lt_freshId {db : DB} {r : Employee} (h : r ∈ db) : r.id < freshId db :=
  Nat.lt_succ_of_le (id_le_maxId h)

lemma find?_freshId_eq_none (db : DB) :
    db.find? (fun r => r.id == freshId db) = none := by
  rw [List.find?_eq_none]
  intro r hr
  simp only [beq_iff_eq]
  exact Nat.ne_of_lt (id_lt_freshId hr)

lemma applyUpdate_id (r : Employee) (emp : EmployeeIn) :
    (applyUpdate r emp).id = r.id := rfl

lemma applyUpdate_eq_rowOfIn {r : Employee} {i : Nat} (emp : EmployeeIn)
    (h : r.id = i) : applyUpdate r emp = rowOfIn emp i := by
  simp [applyUpdate, rowOfIn, h]

/-- With pairwise-distinct ids (the primary-key invariant), `find?` on an
id returns exactly the member row carrying that id. -/
lemma find?_id_of_pairwise {db : DB} {r : Employee} {i : Nat}
    (hwf : db.Pairwise (fun a b => a.id ≠ b.id)) (hr : r ∈ db) (hid : r.id = i) :
    db.find? (fun x => x.id == i) = some r := by
  induction db with
  | nil => cases hr
  | cons a t ih =>
    rcases List.pairwise_cons.mp hwf with ⟨ha, ht⟩
    rcases List.mem_cons.mp hr with rfl | hmem
    · exact List.find?_cons_of_pos _ (by simp [hid])
    · have hne : a.id ≠ i := fun hc => (ha r hmem) (hc.trans hid.symm)
      rw [List.find?_cons_of_neg (p := fun x => x.id == i) t (by simp [hne])]
      exact ih ht hmem

/-- Re-reading by id after the update write finds the fully-replaced row,
as soon as some row carried the id before the write. -/
lemma find?_map_update {db : DB} {i : Nat} (emp : EmployeeIn)
    (h : ∃ r ∈ db, r.id = i) :
    (db.map (fun r => if r.id == i then applyUpdate r emp else r)).find?
      (fun r => r.id == i) = some (rowOfIn emp i) := by
  induction db with
  | nil => rcases h with ⟨r, hr, _⟩; cases hr
  | cons a t ih =>
    by_cases hai : a.id = i
    · simp only [List.map_cons]
      rw [if_pos (show (a.id == i) = true by simp [hai]),
        List.find?_cons_of_pos _ (by simp [applyUpdate_id, hai]),
        applyUpdate_eq_rowOfIn emp hai]
    · simp only [List.map_cons]
      rw [if_neg (show ¬ (a.id == i) = true by simp [hai]),
        List.find?_cons_of_neg (p := fun r : Employee => r.id == i) _ (by simp [hai])]
      apply ih
      rcases h with ⟨r, hr, hid⟩
      rcases List.mem_cons.mp hr with rfl | hmem
      · exact absurd hid hai
      · exact ⟨r, hmem, hid⟩

/-- When no row carries the id, the update write leaves the table
unchanged row by row. -/
lemma update_map_id {db : DB} {i : Nat} (emp : EmployeeIn)
    (h : ∀ r ∈ db, r.id ≠ i) :
    db.map (fun r => if r.id == i then applyUpdate r emp else r) = db := by
  induction db with
  | nil => rfl
  | cons a t ih =>
    simp only [List.map_cons]
    rw [if_neg (show ¬ (a.id == i) = true by simp [h a (List.mem_cons_self a t)]),
      ih (fun r hr => h r (List.mem_cons_of_mem a hr))]

/-- When no row carries the targeted id, the update statement writes
zero rows, so the uniqueness constraint cannot fire. -/
lemma updateEmployeeNoConflict_of_no_row {db : DB} {i : Nat}
    (emp : EmployeeIn) (h : ∀ r ∈ db, r.id ≠ i) :
    updateEmployeeNoConflict db i emp = false := by
  unfold updateEmployeeNoConflict
  cases hs : emp.employee_no with
  | none => rfl
  | some s =>
    have hany : db.any (fun r => r.id == i) = false := by
      rw [List.any_eq_false]
      intro r hr
      simp [h r hr]
    simp [hany]

/-- The update write preserves, in place, every row whose id differs
from the targeted one. -/
lemma update_filter_ne (db : DB) (i : Nat) (emp : EmployeeIn) :
    ((db.map fun r => if r.id == i then applyUpdate r emp else r).filter
        fun r => !(r.id == i)) = db.filter fun r => !(r.id == i) := by
  induction db with
  | nil => rfl
  | cons a t ih =>
    by_cases hai : a.id = i
    · simp only [List.map_cons]
      rw [if_pos (show (a.id == i) = true by simp [hai]),
        List.filter_cons_of_neg (by simp [applyUpdate_id, hai]),
        List.filter_cons_of_neg (by simp [hai])]
      exact ih
    · simp only [List.map_cons]
      rw [if_neg (show ¬ (a.id == i) = true by simp [hai]),
        List.filter_cons_of_pos (by simp [hai]),
        List.filter_cons_of_pos (by simp [hai]),
        ih]

/-- The table state after an update: unchanged when the write aborts on
the uniqueness constraint, the row-by-row replacement otherwise,
independent of whether the re-read succeeded. -/
lemma update_employee_state (db : DB) (i : Nat) (emp : EmployeeIn) :
    (update_employee db i emp).2 =
      if updateEmployeeNoConflict db i emp then db
      else db.map (fun r => if r.id == i then applyUpdate r emp else r) := by
  by_cases hc : updateEmployeeNoConflict db i emp = true
  · simp only [update_employee]
    rw [if_pos hc, if_pos hc]
  · simp only [update_employee]
    rw [if_neg hc, if_neg hc]
    cases h : (db.map (fun r => if r.id == i then applyUpdate r emp else r)).find?
        (fun r => r.id == i) <;> simp [h]

/-! Claim theorems. -/

/-- Claim C1, counterexample: with a stored record carrying
`employee_no` "E1", creating another record with `employee_no` "E1"
fails with the storage engine's uncaught uniqueness exception, which the
caller sees as a generic HTTP 500 server failure — not as a
client-facing (4xx) conflict, contrary to the claim. -/
theorem create_duplicate_cex :
    create_employee dbE1 empE1 = (.error .integrityError, dbE1) ∧
      isClientFacingError .integrityError = false := by
  constructor
  · simp [create_employee, employeeNoConflict, dbE1, empE1]
  · rfl

/-- Claim C1, amended: creating a record whose `employee_no` is a
non-null string already carried by a stored record fails and inserts no
row, but the failure surfaces as the storage engine's uncaught
uniqueness exception — a generic server-side failure (HTTP 500), not a
client-facing conflict/error. -/
theorem create_duplicate_employee_no_fails (db : DB) (emp : EmployeeIn)
    (s : String) (h1 : emp.employee_no = some s)
    (h2 : ∃ r ∈ db, r.employee_no = some s) :
    create_employee db emp = (.error .integrityError, db) ∧
      isClientFacingError .integrityError = false := by
  have hc : employeeNoConflict emp db = true := by
    rcases h2 with ⟨r, hr, hs⟩
    simp only [employeeNoConflict, h1, List.any_eq_true]
    exact ⟨r, hr, by simp [hs]⟩
  exact ⟨by simp [create_employee, hc], rfl⟩

/-- Witness for the amended C1 theorem at a concrete table and input. -/
theorem create_duplicate_employee_no_fails_witness :
    create_employee dbE1 empE1 = (.error .integrityError, dbE1) ∧
      isClientFacingError .integrityError = false :=
  create_duplicate_employee_no_fails dbE1 empE1 "E1" rfl
    ⟨{ id := 1, employee_no := some "E1", first_name := "Bob",
       last_name := "Lee" }, by simp [dbE1], rfl⟩

/-- Claim C7: the delete handler acknowledges with the requested id
whether or not a row carried it, deleting the same id twice yields the
same acknowledgement both times, no row with the requested id remains,
and the handler never signals not-found (its result type carries no
error case). -/
theorem delete_ack_idempotent (db : DB) (i : Nat) :
    (delete_employee db i).1 = { deleted_id := i } ∧
    (delete_employee (delete_employee db i).2 i).1 = { deleted_id := i } ∧
    ∀ r ∈ (delete_employee db i).2, r.id ≠ i := by
  refine ⟨rfl, rfl, ?_⟩
  intro r hr
  have hmem := List.mem_filter.mp hr
  simpa using hmem.2

/-- Claim C8, counterexample: against a table already holding
`employee_no` "E1", the (valid) input `empE1` carrying the same
`employee_no` does not succeed, so create does not succeed on every
valid input record. -/
theorem create_not_always_success_cex :
    succeeded (create_employee dbE1 empE1) = false := by
  simp [succeeded, create_employee, employeeNoConflict, dbE1, empE1]

/-- Claim C8, amended: for every valid input record that does not
collide on `employee_no` with a stored record — in particular any input
supplying only the required `first_name` and `last_name` — create
succeeds, appends a row whose id the storage engine assigns, and
returns the full record including that id, which is a positive
integer. -/
theorem create_no_conflict_succeeds (db : DB) (emp : EmployeeIn)
    (h : employeeNoConflict emp db = false) :
    create_employee db emp =
      (.ok (outOf emp (freshId db)), db ++ [rowOfIn emp (freshId db)]) ∧
      0 < (outOf emp (freshId db)).id := by
  refine ⟨by simp [create_employee, h], ?_⟩
  have hpos : 0 < freshId db := Nat.succ_pos (maxId db)
  exact hpos

/-- Witness for the amended C8 theorem: the required-fields-only input
on the empty table. -/
theorem create_no_conflict_succeeds_witness :
    create_employee [] anaIn =
      (.ok (outOf anaIn (freshId [])), [] ++ [rowOfIn anaIn (freshId [])]) ∧
      0 < (outOf anaIn (freshId [])).id :=
  create_no_conflict_succeeds [] anaIn rfl

/-- Claim C9: a present but empty-string branch filter is falsy in the
handler's `if branch:` test, so the query runs unfiltered — listing with
the empty-string filter coincides with listing with no filter at all. -/
theorem list_empty_string_filter_unfiltered (db : DB) (n : Nat) :
    list_employees db (some "") n = list_employees db none n := rfl

/-- Claim C10: update and delete touch at most the rows carrying the
targeted id — the rows with any other id survive unchanged, in order,
whether or not the targeted id exists. -/
theorem update_delete_frame (db : DB) (i : Nat) (emp : EmployeeIn) :
    ((update_employee db i emp).2.filter fun r => !(r.id == i)) =
        (db.filter fun r => !(r.id == i)) ∧
    ((delete_employee db i).2.filter fun r => !(r.id == i)) =
        (db.filter fun r => !(r.id == i)) := by
  constructor
  · rw [update_employee_state]
    by_cases hc : updateEmployeeNoConflict db i emp = true
    · rw [if_pos hc]
    · rw [if_neg hc]
      exact update_filter_ne db i emp
  · apply List.filter_eq_self.mpr
    intro r hr
    exact (List.mem_filter.mp hr).2

/-- Claim C2: whenever create returns a record and a new table state,
getting by the returned record's id against that state yields exactly
the record create returned, with the table untouched. -/
theorem create_then_get_roundtrip (db : DB) (emp : EmployeeIn)
    (out : EmployeeOut) (db2 : DB)
    (h : create_employee db emp = (.ok out, db2)) :
    get_employee db2 out.id = (.ok out, db2) := by
  by_cases hc : employeeNoConflict emp db = true
  · simp only [create_employee] at h
    rw [if_pos hc] at h
    exact absurd h (by simp)
  · simp only [create_employee] at h
    rw [if_neg hc, Prod.mk.injEq] at h
    obtain ⟨h1, h2⟩ := h
    injection h1 with h1
    subst h1
    subst h2
    have hid : (outOf emp (freshId db)).id = freshId db := rfl
    rw [hid]
    have hfind : (db ++ [rowOfIn emp (freshId db)]).find?
        (fun r => r.id == freshId db) = some (rowOfIn emp (freshId db)) := by
      rw [List.find?_append, find?_freshId_eq_none db]
      simp [rowOfIn]
    simp [get_employee, hfind]
    rfl

/-- Witness for C2: the round trip on the empty table with the
required-fields-only input. -/
theorem create_then_get_roundtrip_witness :
    get_employee [rowOfIn anaIn 1] (outOf anaIn 1).id =
      (.ok (outOf anaIn 1), [rowOfIn anaIn 1]) :=
  create_then_get_roundtrip [] anaIn (outOf anaIn 1) [rowOfIn anaIn 1] rfl

/-- Claim C3, counterexample: row 2 of `dbTwo` exists and `empE1` is a
valid input record, yet updating row 2 with it does not replace the
row's fields — the supplied `employee_no` "E1" is already held by
row 1, so the write aborts on the uniqueness constraint and the table
keeps its old values, the caller seeing an uncaught HTTP 500 failure
instead of the updated record. -/
theorem update_collision_cex :
    update_employee dbTwo 2 empE1 = (.error .integrityError, dbTwo) ∧
      rowOfIn empE1 2 ∉ (update_employee dbTwo 2 empE1).2 := by
  constructor
  · simp [update_employee, updateEmployeeNoConflict, dbTwo, empE1]
  · simp [update_employee, updateEmployeeNoConflict, dbTwo, empE1, rowOfIn]

/-- Claim C3, amended: when some row carries the targeted id and the
supplied record's `employee_no` does not collide with a different row's,
update returns the re-read record whose fields are exactly the supplied
values under the targeted id, every row left carrying that id holds
exactly the supplied values, and no row's id changes; a colliding
`employee_no` instead aborts the write on the uniqueness constraint,
leaving the table unchanged and surfacing as an uncaught server
failure. -/
theorem update_existing_full_replace (db : DB) (i : Nat) (emp : EmployeeIn)
    (h : ∃ r ∈ db, r.id = i)
    (hc : updateEmployeeNoConflict db i emp = false) :
    (update_employee db i emp).1 = .ok (outOf emp i) ∧
    (∀ r ∈ (update_employee db i emp).2, r.id = i → r = rowOfIn emp i) ∧
    (update_employee db i emp).2.map (fun r => r.id) =
      db.map (fun r => r.id) := by
  have hcn : ¬ updateEmployeeNoConflict db i emp = true := by simp [hc]
  have hfind := find?_map_update emp h
  refine ⟨?_, ?_, ?_⟩
  · simp only [update_employee]
    rw [if_neg hcn, hfind]
    rfl
  · intro r hr hrid
    rw [update_employee_state, if_neg hcn] at hr
    rcases List.mem_map.mp hr with ⟨r0, hr0, hmap⟩
    by_cases h0 : r0.id = i
    · rw [← hmap, if_pos (show (r0.id == i) = true by simp [h0])]
      exact applyUpdate_eq_rowOfIn emp h0
    · exfalso
      rw [if_neg (show ¬ (r0.id == i) = true by simp [h0])] at hmap
      rw [← hmap] at hrid
      exact h0 hrid
  · rw [update_employee_state, if_neg hcn, List.map_map]
    apply List.map_congr_left
    intro a _
    simp only [Function.comp_apply]
    by_cases h0 : a.id = i
    · rw [if_pos (show (a.id == i) = true by simp [h0])]
      exact applyUpdate_id a emp
    · rw [if_neg (show ¬ (a.id == i) = true by simp [h0])]

/-- Witness for the amended C3 theorem at a concrete table, id and
input: `anaIn` carries no `employee_no`, so both hypotheses hold. -/
theorem update_existing_full_replace_witness :
    (update_employee dbE1 1 anaIn).1 = .ok (outOf anaIn 1) :=
  (update_existing_full_replace dbE1 1 anaIn
    ⟨{ id := 1, employee_no := some "E1", first_name := "Bob",
       last_name := "Lee" }, by simp [dbE1], rfl⟩ rfl).1

/-- Claim C4: when no row carries the targeted id, update signals 404
(after the wasted write attempt) and leaves the table exactly as it
was — in particular it creates no row. -/
theorem update_nonexistent_not_found (db : DB) (i : Nat) (emp : EmployeeIn)
    (h : ∀ r ∈ db, r.id ≠ i) :
    update_employee db i emp =
      (.error (.httpException 404 "Employee not found after update"), db) := by
  have hcn : ¬ updateEmployeeNoConflict db i emp = true := by
    simp [updateEmployeeNoConflict_of_no_row emp h]
  have hmap := update_map_id emp h
  have hfind : db.find? (fun r => r.id == i) = none :=
    List.find?_eq_none.mpr (fun r hr => by simp [h r hr])
  simp only [update_employee]
  rw [if_neg hcn, hmap, hfind]

/-- Witness for C4: updating the absent id 2 on the one-row table. -/
theorem update_nonexistent_not_found_witness :
    update_employee dbE1 2 anaIn =
      (.error (.httpException 404 "Employee not found after update"), dbE1) :=
  update_nonexistent_not_found dbE1 2 anaIn (by decide)

/-- Claim C5: under the primary-key invariant (pairwise-distinct ids),
get-by-id returns the record of the row carrying the requested id when
one exists, signals 404 exactly when none does, and leaves the table
unchanged. -/
theorem get_by_id_spec (db : DB) (i : Nat)
    (hwf : db.Pairwise (fun a b => a.id ≠ b.id)) :
    (∀ r ∈ db, r.id = i → get_employee db i = (.ok (rowToOut r), db)) ∧
    ((∀ r ∈ db, r.id ≠ i) →
      get_employee db i = (.error (.httpException 404 "Employee not found"), db)) ∧
    (get_employee db i).2 = db := by
  refine ⟨?_, ?_, ?_⟩
  · intro r hr hrid
    have hfind := find?_id_of_pairwise hwf hr hrid
    simp [get_employee, hfind]
  · intro hno
    have hfind : db.find? (fun r => r.id == i) = none :=
      List.find?_eq_none.mpr (fun r hr => by simp [hno r hr])
    simp [get_employee, hfind]
  · cases hf : db.find? (fun r => r.id == i) <;> simp [get_employee, hf]

/-- Witness for C5: the one-row table and its own id. -/
theorem get_by_id_spec_witness :
    get_employee [rowOfIn anaIn 1] 1 =
      (.ok (rowToOut (rowOfIn anaIn 1)), [rowOfIn anaIn 1]) :=
  (get_by_id_spec [rowOfIn anaIn 1] 1
      (List.pairwise_singleton _ _)).1
    (rowOfIn anaIn 1) (List.mem_singleton.mpr rfl) rfl

/-- Claim C6, counterexample: with the branch filter present but equal
to the empty string, the handler's truthiness test skips the filter, so
a record whose branch is "North" — not the filter value — is returned. -/
theorem list_empty_filter_cex :
    (list_employees dbNorth (some "") 100).1 = [rowToOut northRow] ∧
      (rowToOut northRow).branch ≠ some "" := by
  constructor
  · rfl
  · simp [rowToOut, northRow]

/-- Claim C6, amended: when the list operation is given a present,
non-empty branch filter and a limit, every returned record's branch
equals the filter, at most limit-many records return, and the stored
state is untouched; an empty-string filter instead applies no branch
restriction at all. -/
theorem list_branch_filter_spec (db : DB) (b : String) (n : Nat)
    (hb : b ≠ "") :
    (∀ o ∈ (list_employees db (some b) n).1, o.branch = some b) ∧
    (list_employees db (some b) n).1.length ≤ n ∧
    (list_employees db (some b) n).2 = db := by
  refine ⟨?_, ?_, rfl⟩
  · intro o ho
    simp only [list_employees, if_neg hb] at ho
    rcases List.mem_map.mp ho with ⟨r, hr, hro⟩
    have hrf := List.mem_filter.mp (List.mem_of_mem_take hr)
    have hbr : r.branch = some b := by simpa using hrf.2
    rw [← hro]
    simpa [rowToOut] using hbr
  · simp only [list_employees, if_neg hb]
    rw [List.length_map, List.length_take]
    exact min_le_left _ _

/-- Witness for the amended C6 theorem with the filter "North". -/
theorem list_branch_filter_spec_witness :
    (list_employees dbNorth (some "North") 100).1.length ≤ 100 :=
  (list_branch_filter_spec dbNorth "North" 100 (by decide)).2.1

end MdmHR
